import Mathlib

/-
Verification development for the foodgram recipe-sharing backend
(src/backend).  The Python/Django source is shallowly embedded: each
database table becomes a list of rows, each relevant view / serializer
method becomes a Lean function on an explicit `Db` state, and fallible
operations return `Except String _` carrying the source's error message.
-/

namespace Foodgram

open List

/-- Row of the `Ingredient` table (api/models.py, class `Ingredient`):
name and measurement unit, unique on the pair. -/
structure Ingredient where
  id : Nat
  name : String
  measurement_unit : String
deriving DecidableEq

/-- Row of the `IngredientInRecipe` table (api/models.py, class
`IngredientInRecipe`): the (recipe, ingredient, amount) line, with its
own primary key `id` so that row identity is observable.  The table has
a unique constraint on (ingredient, recipe) (`unique_ingredient_recipe`). -/
structure IngredientLine where
  id : Nat
  recipe : Nat
  ingredient : Nat
  amount : Int
deriving DecidableEq

/-- Row of the `Recipe` table (api/models.py, class `Recipe`).  The
many-to-many tag set is kept inline as a list of tag ids.  The `image`
and `pub_date` columns are not modelled: no claim mentions them. -/
structure Recipe where
  id : Nat
  author : Nat
  name : String
  text : String
  cooking_time : Int
  tags : List Nat
deriving DecidableEq

/-- Row of the `ShoppingCart` table (api/models.py): a (user, recipe)
pair, unique (`unique_shopping_list_recipe`). -/
structure ShoppingCartRow where
  user : Nat
  recipe : Nat
deriving DecidableEq

/-- Row of the favorites table (api/models.py): a (user, recipe) pair,
unique via the serializer's `UniqueTogetherValidator`. -/
structure FavoriteRow where
  user : Nat
  recipe : Nat
deriving DecidableEq

/-- Row of the `Follow` table (users/models.py, class `Follow`):
`user` follows `author`; unique (`unique_follow`) and guarded by the
check constraint `no_self_follow` (`~Q(author=F('user'))`). -/
structure FollowRow where
  user : Nat
  author : Nat
deriving DecidableEq

/-- The database state: one list of rows per table.  `recipeIngredient`
is the separate `RecipeIngredient` through table of the unused
`Recipe.ingredients` many-to-many (api/models.py, class
`RecipeIngredient`); the write pipeline never inserts into it, but
`RecipeWriteSerializer.update` clears it. -/
structure Db where
  ingredients : List Ingredient
  recipes : List Recipe
  lines : List IngredientLine
  recipeIngredient : List (Nat × Nat × Int)
  cart : List ShoppingCartRow
  favorites : List FavoriteRow
  follows : List FollowRow
deriving DecidableEq

/-! ### Shopping list aggregation

`RecipeViewSet.download_shopping_cart` (api/views.py lines 284-304)
runs the queryset

  IngredientInRecipe.objects
    .filter(recipe__in_shopping_carts__user=user)
    .values('ingredient__name', 'ingredient__measurement_unit')
    .annotate(total=Sum('amount'))
    .order_by('ingredient__name')

i.e. an SQL join of the line table with the user's cart rows, grouped by
the (ingredient name, measurement unit) pair, summing `amount`, ordered
by name. -/

/-- Recipe ids in the given user's shopping cart, in table order. -/
def userCartRecipeIds (db : Db) (u : Nat) : List Nat :=
  (db.cart.filter (fun e => e.user == u)).map (fun e => e.recipe)

/-- The joined rows of the queryset filter
`recipe__in_shopping_carts__user=user`: every line of every recipe in
the user's cart, one copy per matching cart row (SQL join semantics). -/
def cartLines (db : Db) (u : Nat) : List IngredientLine :=
  (userCartRecipeIds db u).flatMap
    (fun rid => db.lines.filter (fun l => l.recipe == rid))

/-- Lookup of `ingredient__name` through the line's foreign key. -/
def ingredientName (db : Db) (iid : Nat) : String :=
  ((db.ingredients.find? (fun i => i.id == iid)).map (fun i => i.name)).getD ""

/-- Lookup of `ingredient__measurement_unit` through the foreign key. -/
def ingredientUnit (db : Db) (iid : Nat) : String :=
  ((db.ingredients.find? (fun i => i.id == iid)).map
    (fun i => i.measurement_unit)).getD ""

/-- The grouping key of a line: the `(ingredient__name,
ingredient__measurement_unit)` pair of the queryset's `values(...)`. -/
def linePair (db : Db) (l : IngredientLine) : String × String :=
  (ingredientName db l.ingredient, ingredientUnit db l.ingredient)

/-- `Sum('amount')` for one grouping key: the sum of the amounts of all
joined lines whose ingredient carries that (name, unit) pair. -/
def pairTotal (db : Db) (u : Nat) (k : String × String) : Int :=
  (((cartLines db u).filter (fun l => linePair db l == k)).map
    (fun l => l.amount)).sum

/-- The distinct grouping keys appearing among the joined lines. -/
def cartPairs (db : Db) (u : Nat) : List (String × String) :=
  ((cartLines db u).map (linePair db)).dedup

/-- Ordering of grouping keys used by `order_by('ingredient__name')`:
compare by ingredient name only. -/
def pairNameLe (a b : String × String) : Prop := a.1 ≤ b.1

instance : DecidableRel pairNameLe :=
  fun a b => inferInstanceAs (Decidable (a.1 ≤ b.1))

instance : IsTotal (String × String) pairNameLe :=
  ⟨fun a b => le_total a.1 b.1⟩

instance : IsTrans (String × String) pairNameLe :=
  ⟨fun _ _ _ h h' => le_trans h h'⟩

/-- One output row of the aggregation: the dict
`{'ingredient__name': name, 'ingredient__measurement_unit': unit,
'total': total}`. -/
structure AggRow where
  name : String
  unit : String
  total : Int
deriving DecidableEq

/-- Ordering of output rows by ingredient name, as produced by
`order_by('ingredient__name')`. -/
def rowNameLe (a b : AggRow) : Prop := a.name ≤ b.name

/-- The aggregated, name-ordered output rows of the shopping cart
queryset. -/
def aggRows (db : Db) (u : Nat) : List AggRow :=
  (List.insertionSort pairNameLe (cartPairs db u)).map
    (fun k => { name := k.1, unit := k.2, total := pairTotal db u k })

/-- The plain-text body built by `download_shopping_cart`
(api/views.py lines 295-299): one line
`f"{name} ({unit}) - {total}"` per aggregated row, newline-joined.
No header, no numbering, no recipe section. -/
def downloadShoppingCartText (db : Db) (u : Nat) : String :=
  String.intercalate "\n" ((aggRows db u).map
    (fun item =>
      item.name ++ " (" ++ item.unit ++ ") - " ++ toString item.total))

/-! ### The plain-text renderer `render_shopping_list` (api/utils.py)

The helper takes the aggregated ingredient dicts and the recipe objects,
validates their shape, and renders the dated, numbered report.  The
Python `datetime.now().strftime('%d-%m-%Y')` call is impure, so the
formatted date is passed in as the `current_date` argument.  A dict is
modelled as an association list of string keys to string values (the
`total_amount` value is the decimal rendering of the summed amount,
matching how Python formats it into the f-string); a recipe object is
modelled by its optional `name` attribute (`hasattr(recipe, "name")`
becomes `Option.isSome`). -/

/-- A Python dict row, as an association list. -/
def DictRow : Type := List (String × String)

/-- Membership test `key in dict`. -/
def hasKey (row : DictRow) (k : String) : Bool :=
  row.any (fun p => p.1 == k)

/-- Lookup `dict[key]` (defaulting to `""`; the renderer only reads
keys it has checked for). -/
def getKey (row : DictRow) (k : String) : String :=
  ((row.find? (fun p => p.1 == k)).map (fun p => p.2)).getD ""

/-- The per-row shape check of `render_shopping_list` (utils.py lines
6-12): all of `ingredient__name`, `total_amount`,
`ingredient__measurement_unit` must be keys of the dict. -/
def rowFormatOk (row : DictRow) : Bool :=
  hasKey row "ingredient__name" && hasKey row "total_amount" &&
    hasKey row "ingredient__measurement_unit"

/-- A recipe object as seen by the renderer: only its (possibly absent)
`name` attribute matters. -/
structure RecipeObj where
  name : Option String
deriving DecidableEq

/-- Python's `str.capitalize()`: first character upper-cased, the rest
lower-cased. -/
def pyCapitalize (s : String) : String :=
  match s.data with
  | [] => ""
  | c :: cs => String.mk (c.toUpper :: cs.map Char.toLower)

/-- One numbered ingredient row of the report (utils.py lines 24-26):
`f'{index}. {name.capitalize()} — {total_amount} {unit}'`, with
`enumerate(ingredients, 1)` indices. -/
def ingredientLineText (index : Nat) (row : DictRow) : String :=
  toString index ++ ". " ++ pyCapitalize (getKey row "ingredient__name") ++
    " — " ++ getKey row "total_amount" ++ " " ++
    getKey row "ingredient__measurement_unit"

/-- `render_shopping_list(ingredients, recipes)` (utils.py lines 4-47).
Raising `ValueError` is modelled as `Except.error` carrying the
message. -/
def render_shopping_list (current_date : String) (ingredients : List DictRow)
    (recipes : List RecipeObj) : Except String String :=
  if ingredients.any (fun row => !(rowFormatOk row)) then
    Except.error "Некорректный формат данных в ingredients"
  else if !(recipes.all (fun r => r.name.isSome)) then
    Except.error "Некорректный формат данных в recipes"
  else
    let ingredients_section :=
      if ingredients.isEmpty then "Нет ингредиентов"
      else String.intercalate "\n"
        (ingredients.enum.map (fun p => ingredientLineText (p.1 + 1) p.2))
    let recipes_section :=
      if recipes.isEmpty then "Нет рецептов"
      else String.intercalate "\n"
        (recipes.enum.map
          (fun p => toString (p.1 + 1) ++ ". " ++ (p.2.name.getD "")))
    Except.ok (String.intercalate "\n" [
      "Список покупок составлен: " ++ current_date,
      "Список продуктов:",
      ingredients_section,
      "",
      "Рецепты, для которых составлен список покупок:",
      recipes_section])

/-- The dict actually produced for one aggregated row by the
`download_shopping_cart` queryset: `values(...)` plus
`annotate(total=Sum('amount'))` yields keys `ingredient__name`,
`ingredient__measurement_unit` and `total` — not `total_amount`. -/
def downloadRowDict (r : AggRow) : DictRow :=
  [("ingredient__name", r.name),
   ("ingredient__measurement_unit", r.unit),
   ("total", toString r.total)]

/-- The aggregated rows of the download endpoint, as dicts. -/
def downloadRows (db : Db) (u : Nat) : List DictRow :=
  (aggRows db u).map downloadRowDict

/-! ### Recipe write pipeline (api/serializers.py, `RecipeWriteSerializer`)

A request body is a `RecipePatch`: each updatable field is optional
(absent on a partial update).  The `image` field is not modelled — no
claim concerns it.  Validation mirrors the serializer: per-field
validators first (the auto-generated `cooking_time` field inherits the
model's `MinValueValidator(1)` / `MaxValueValidator(3200)` from
`Recipe.cooking_time`, api/models.py lines 90-96), then the
object-level `validate`. -/

/-- One entry of the `ingredients` request list:
`IngredientInRecipeWriteSerializer` fields `(id, amount)`. -/
structure IngredientInput where
  id : Nat
  amount : Int
deriving DecidableEq

/-- A create/update request body; `none` means the field was absent. -/
structure RecipePatch where
  name : Option String
  text : Option String
  cooking_time : Option Int
  tags : Option (List Nat)
  ingredients : Option (List IngredientInput)
deriving DecidableEq

/-- DRF bound check of the auto-generated `cooking_time` integer field:
min/max values inherited from the model validators
`MinValueValidator(1)` and `MaxValueValidator(3200)`. -/
def cookingTimeField (ct : Int) : Except String Int :=
  if ct < 1 then Except.error "Ensure this value is greater than or equal to 1."
  else if 3200 < ct then
    Except.error "Ensure this value is less than or equal to 3200."
  else Except.ok ct

/-- `validate_cooking_time` (serializers.py lines 371-377): rejects
values `<= 0`. -/
def validate_cooking_time (ct : Int) : Except String Int :=
  if ct ≤ 0 then
    Except.error "Время приготовления не может быть меньше одной минуты!"
  else Except.ok ct

/-- The duplicate-detection loop of `validate_tags` (serializers.py
lines 359-369), accumulating the tags seen so far. -/
def tagsSeenLoop (seen : List Nat) : List Nat → Bool
  | [] => false
  | t :: rest => if seen.contains t then true else tagsSeenLoop (t :: seen) rest

/-- `validate_tags` (serializers.py lines 359-369): non-empty, no
duplicate tag. -/
def validate_tags (value : List Nat) : Except String (List Nat) :=
  if value.isEmpty then Except.error "Добавьте хотя бы один тег."
  else if tagsSeenLoop [] value then
    Except.error "Теги должны быть уникальными."
  else Except.ok value

/-- The id/amount loop of `validate_ingredients` (serializers.py lines
292-304): per item, first the duplicate-id check against the
accumulated list, then the `amount < 1` check. -/
def ingredientsLoop (seen : List Nat) : List IngredientInput → Except String Unit
  | [] => Except.ok ()
  | item :: rest =>
    if seen.contains item.id then
      Except.error "Ингредиенты должны быть уникальными"
    else if item.amount < 1 then
      Except.error "Количество должно быть не менее 1"
    else ingredientsLoop (item.id :: seen) rest

/-- `validate_ingredients` (serializers.py lines 286-305). -/
def validate_ingredients (value : List IngredientInput) :
    Except String (List IngredientInput) :=
  if value.length < 1 then Except.error "Добавьте хотя бы один ингредиент"
  else
    match ingredientsLoop [] value with
    | Except.error e => Except.error e
    | Except.ok _ => Except.ok value

/-- Object-level `validate` (serializers.py lines 307-319): the
`ingredients` key must be present, and the `tags` key must be present
and non-empty. -/
def serializerValidate (p : RecipePatch) : Except String Unit :=
  if p.ingredients.isNone then
    Except.error "Требуется хотя бы один ингредиент"
  else if (p.tags.getD []).isEmpty then
    Except.error "Требуется хотя бы один тег"
  else Except.ok ()

/-- Field validation of an optional `cooking_time`. -/
def runCookingTime : Option Int → Except String Unit
  | none => Except.ok ()
  | some ct =>
    match cookingTimeField ct with
    | Except.error e => Except.error e
    | Except.ok _ =>
      match validate_cooking_time ct with
      | Except.error e => Except.error e
      | Except.ok _ => Except.ok ()

/-- Field validation of an optional `tags` list. -/
def runTags : Option (List Nat) → Except String Unit
  | none => Except.ok ()
  | some ts =>
    match validate_tags ts with
    | Except.error e => Except.error e
    | Except.ok _ => Except.ok ()

/-- Field validation of an optional `ingredients` list. -/
def runIngredients : Option (List IngredientInput) → Except String Unit
  | none => Except.ok ()
  | some ing =>
    match validate_ingredients ing with
    | Except.error e => Except.error e
    | Except.ok _ => Except.ok ()

/-- `serializer.is_valid()`: per-field validators, then the
object-level `validate`. -/
def runValidation (p : RecipePatch) : Except String RecipePatch :=
  match runCookingTime p.cooking_time with
  | Except.error e => Except.error e
  | Except.ok _ =>
    match runTags p.tags with
    | Except.error e => Except.error e
    | Except.ok _ =>
      match runIngredients p.ingredients with
      | Except.error e => Except.error e
      | Except.ok _ =>
        match serializerValidate p with
        | Except.error e => Except.error e
        | Except.ok _ => Except.ok p

/-- Smallest id strictly above every id in the list (fresh primary
key for an insert). -/
def freshId (ids : List Nat) : Nat := ids.foldr max 0 + 1

/-- The `IngredientInRecipe` objects built for a `bulk_create`: one row
per input, with consecutive fresh primary keys. -/
def mkLines (firstId rid : Nat) : List IngredientInput → List IngredientLine
  | [] => []
  | i :: rest =>
    { id := firstId, recipe := rid, ingredient := i.id, amount := i.amount } ::
      mkLines (firstId + 1) rid rest

/-- Violation test of the `unique_ingredient_recipe` constraint for a
`bulk_create`: a new row collides with an existing row or two new rows
collide with each other. -/
def lineConflict (existing newLines : List IngredientLine) : Bool :=
  newLines.any (fun n => existing.any
      (fun l => l.recipe == n.recipe && l.ingredient == n.ingredient)) ||
    !(decide ((newLines.map (fun l => (l.recipe, l.ingredient))).Nodup))

/-- `IngredientInRecipe.objects.bulk_create(...)` for one recipe:
appends the new rows, or fails with `IntegrityError` if the unique
constraint on (ingredient, recipe) is violated. -/
def bulk_create (db : Db) (rid : Nat) (ing : List IngredientInput) :
    Except String Db :=
  let newLines := mkLines (freshId (db.lines.map (fun l => l.id))) rid ing
  if lineConflict db.lines newLines then
    Except.error "IntegrityError: unique_ingredient_recipe"
  else Except.ok { db with lines := db.lines ++ newLines }

/-- The serializer's required fields on a create (POST): `name`,
`text`, `cooking_time`, `tags`, `ingredients` must all be supplied. -/
def requiredForCreate (p : RecipePatch) : Bool :=
  p.name.isSome && p.text.isSome && p.cooking_time.isSome &&
    p.tags.isSome && p.ingredients.isSome

/-- `RecipeWriteSerializer.create` (serializers.py lines 321-357),
composed with `is_valid`: validates, inserts the recipe row with its
tags, re-checks every amount (the redundant loop of lines 334-341),
and bulk-creates the ingredient lines; `@transaction.atomic` rolls the
whole insert back on failure, so an error leaves the state unchanged.
Returns the new state and the fresh recipe id.  The `getD` defaults are
never reached: the required-field check guarantees every field is
supplied. -/
def createRecipe (db : Db) (author : Nat) (p : RecipePatch) :
    Except String (Db × Nat) :=
  if !(requiredForCreate p) then Except.error "This field is required."
  else
    match runValidation p with
    | Except.error e => Except.error e
    | Except.ok _ =>
      let ing := p.ingredients.getD []
      if ing.any (fun it => it.amount < 1) then
        Except.error "Количество должно быть не менее 1"
      else
        let rid := freshId (db.recipes.map (fun r => r.id))
        let recipe : Recipe :=
          { id := rid, author := author, name := p.name.getD "",
            text := p.text.getD "", cooking_time := p.cooking_time.getD 0,
            tags := p.tags.getD [] }
        let db1 := { db with recipes := db.recipes ++ [recipe] }
        match bulk_create db1 rid ing with
        | Except.error e => Except.error e
        | Except.ok db2 => Except.ok (db2, rid)

/-- Scalar part of `update` (serializers.py lines 387-392): fields not
supplied are left unchanged. -/
def applyScalarFields (r : Recipe) (p : RecipePatch) : Recipe :=
  { r with name := p.name.getD r.name, text := p.text.getD r.text,
           cooking_time := p.cooking_time.getD r.cooking_time }

/-- `instance.tags.set(validated_data['tags'])`: executes against the
database immediately. -/
def setRecipeTags (db : Db) (rid : Nat) (ts : List Nat) : Db :=
  { db with recipes := (db.recipes.map
      (fun q => if q.id == rid then { q with tags := ts } else q)) }

/-- `instance.save()` for the in-memory scalar field changes. -/
def saveScalars (db : Db) (rid : Nat) (p : RecipePatch) : Db :=
  { db with recipes := (db.recipes.map
      (fun q => if q.id == rid then applyScalarFields q p else q)) }

/-- `instance.ingredients.clear()` (serializers.py line 401): the
`ingredients` many-to-many goes through the separate `RecipeIngredient`
table, so this clears that table's rows for the recipe and leaves the
`IngredientInRecipe` rows untouched. -/
def clearRecipeIngredientThrough (db : Db) (rid : Nat) : Db :=
  { db with recipeIngredient :=
      db.recipeIngredient.filter (fun t => !(t.1 == rid)) }

/-- `RecipeWriteSerializer.update` (serializers.py lines 379-405),
composed with the view flow: resolve the recipe, check the author,
validate, then apply the changes in source order — `tags.set` hits the
database at once; for `ingredients` the code clears the unused
`RecipeIngredient` through table and bulk-creates the new
`IngredientInRecipe` rows (`add_ingredients`, lines 273-284) without
deleting the old ones; `instance.save()` persists the scalar fields
last, so a bulk-create `IntegrityError` leaves the scalars unsaved but
the tag change already committed.  Returns the resulting state and the
outcome. -/
def updateRecipe (db : Db) (actor rid : Nat) (p : RecipePatch) :
    Db × Except String Unit :=
  match db.recipes.find? (fun r => r.id == rid) with
  | none => (db, Except.error "404: рецепт не найден")
  | some r =>
    if !(r.author == actor) then
      (db, Except.error "У вас нет прав редактировать этот рецепт")
    else
      match runValidation p with
      | Except.error e => (db, Except.error e)
      | Except.ok _ =>
        let db1 :=
          match p.tags with
          | some ts => setRecipeTags db rid ts
          | none => db
        match p.ingredients with
        | some ing =>
          let db2 := clearRecipeIngredientThrough db1 rid
          match bulk_create db2 rid ing with
          | Except.error e => (db2, Except.error e)
          | Except.ok db3 => (saveScalars db3 rid p, Except.ok ())
        | none => (saveScalars db1 rid p, Except.ok ())

/-- `RecipeWriteSerializer.update_ingredients` (serializers.py lines
407-442) — dead code: `update` never calls it.  It updates the amount
of existing rows in place (keeping their primary keys), deletes rows
whose ingredient is absent from the new list, and bulk-creates rows for
newly listed ingredients. -/
def update_ingredients (db : Db) (rid : Nat)
    (ingredients_data : List IngredientInput) : Db :=
  let current := db.lines.filter (fun l => l.recipe == rid)
  let newIds := ingredients_data.map (fun i => i.id)
  let updatedLines := db.lines.map (fun l =>
    if l.recipe == rid then
      match ingredients_data.find? (fun i => i.id == l.ingredient) with
      | some i => { l with amount := i.amount }
      | none => l
    else l)
  let afterDelete := updatedLines.filter
    (fun l => !(l.recipe == rid) || newIds.contains l.ingredient)
  let freshInputs := ingredients_data.filter
    (fun i => !(current.any (fun l => l.ingredient == i.id)))
  { db with lines := afterDelete ++
      mkLines (freshId (db.lines.map (fun l => l.id))) rid freshInputs }

/-! ### Relation registry: Follow / Favorite / ShoppingCart rows

Each add path is: serializer uniqueness validation (and for Follow the
self-subscription check), then the insert, guarded by the table's
database constraint.  Each remove path (`UserViewSet.subscribe` DELETE,
api/views.py lines 119-126, and `RecipeViewSet.recipe_action` DELETE,
lines 247-251) filters the matching rows, errors if none exist, and
deletes them otherwise. -/

/-- The database-level guard of a Follow insert: the `unique_follow`
and `no_self_follow` constraints (users/models.py lines 97-106). -/
def followConstraintOk (rows : List FollowRow) (f : FollowRow) : Bool :=
  !(rows.any (fun g => g.user == f.user && g.author == f.author)) &&
    !(f.author == f.user)

/-- Modelled from the spec: `FollowCreateSerializer`, used by the POST
branch of `UserViewSet.subscribe`, is absent from src/.  Its checks are
modelled after `FollowSerializer.validate` (serializers.py lines
90-103, present in src/): reject an existing (user, author) pair, then
reject `user == author`; the insert itself is guarded by the Follow
table constraints (users/models.py, present in src/). -/
def followAdd (rows : List FollowRow) (u a : Nat) :
    List FollowRow × Except String Unit :=
  if rows.any (fun f => f.user == u && f.author == a) then
    (rows, Except.error "Вы уже подписаны на этого пользователя!")
  else if u == a then
    (rows, Except.error "Вы не можете подписаться на самого себя!")
  else if !(followConstraintOk rows { user := u, author := a }) then
    (rows, Except.error "IntegrityError: follow constraints")
  else
    (rows ++ [{ user := u, author := a }], Except.ok ())

/-- DELETE branch of `UserViewSet.subscribe` (api/views.py lines
119-126): error if the subscription does not exist, delete it
otherwise. -/
def followRemove (rows : List FollowRow) (u a : Nat) :
    List FollowRow × Except String Unit :=
  let subscription := rows.filter (fun f => f.user == u && f.author == a)
  if subscription.isEmpty then (rows, Except.error "Подписка не найдена")
  else (rows.filter (fun f => !(f.user == u && f.author == a)), Except.ok ())

/-- POST branch of `RecipeViewSet.favorite`: `FavoriteSerializer`
(serializers.py lines 225-235) rejects an existing (user, recipe) pair
through its `UniqueTogetherValidator`, then the row is inserted. -/
def favoriteAdd (rows : List FavoriteRow) (u rid : Nat) :
    List FavoriteRow × Except String Unit :=
  if rows.any (fun f => f.user == u && f.recipe == rid) then
    (rows, Except.error "The fields user, recipe must make a unique set.")
  else (rows ++ [{ user := u, recipe := rid }], Except.ok ())

/-- DELETE branch of `RecipeViewSet.favorite` via `recipe_action`
(api/views.py lines 247-251). -/
def favoriteRemove (rows : List FavoriteRow) (u rid : Nat) :
    List FavoriteRow × Except String Unit :=
  let relation := rows.filter (fun f => f.user == u && f.recipe == rid)
  if relation.isEmpty then
    (rows, Except.error "Этого рецепта нет в избранном.")
  else (rows.filter (fun f => !(f.user == u && f.recipe == rid)), Except.ok ())

/-- Modelled from the spec: `ShoppingCartSerializer`, used by the POST
branch of `RecipeViewSet.shopping_cart`, is absent from src/.  Per the
spec's `addRelation` contract a duplicate (user, recipe) pair fails
with `AlreadyExists`; the rejection is backed by the
`unique_shopping_list_recipe` constraint of `ShoppingCart.Meta`
(api/models.py lines 196-201, present in src/). -/
def cartAdd (rows : List ShoppingCartRow) (u rid : Nat) :
    List ShoppingCartRow × Except String Unit :=
  if rows.any (fun f => f.user == u && f.recipe == rid) then
    (rows, Except.error "The fields user, recipe must make a unique set.")
  else (rows ++ [{ user := u, recipe := rid }], Except.ok ())

/-- DELETE branch of `RecipeViewSet.shopping_cart` via `recipe_action`
(api/views.py lines 247-251). -/
def cartRemove (rows : List ShoppingCartRow) (u rid : Nat) :
    List ShoppingCartRow × Except String Unit :=
  let relation := rows.filter (fun f => f.user == u && f.recipe == rid)
  if relation.isEmpty then (rows, Except.error "Рецепта нет в корзине.")
  else (rows.filter (fun f => !(f.user == u && f.recipe == rid)), Except.ok ())

/-- Follow-table states reachable from the empty table through the
subscribe/unsubscribe endpoints. -/
inductive FollowReach : List FollowRow → Prop
  | init : FollowReach []
  | add (s : List FollowRow) (u a : Nat) :
      FollowReach s → FollowReach (followAdd s u a).1
  | remove (s : List FollowRow) (u a : Nat) :
      FollowReach s → FollowReach (followRemove s u a).1

/-- Number of stored Follow rows for a (user, author) pair. -/
def followCount (rows : List FollowRow) (u a : Nat) : Nat :=
  (rows.filter (fun f => f.user == u && f.author == a)).length

/-- Number of stored Favorite rows for a (user, recipe) pair. -/
def favoriteCount (rows : List FavoriteRow) (u rid : Nat) : Nat :=
  (rows.filter (fun f => f.user == u && f.recipe == rid)).length

/-- Number of stored ShoppingCart rows for a (user, recipe) pair. -/
def cartCount (rows : List ShoppingCartRow) (u rid : Nat) : Nat :=
  (rows.filter (fun f => f.user == u && f.recipe == rid)).length

/-! ### Invariants claimed for recipes after a successful write -/

/-- The stored ingredient lines of one recipe. -/
def recipeLines (db : Db) (rid : Nat) : List IngredientLine :=
  db.lines.filter (fun l => l.recipe == rid)

/-- The invariant the spec claims after any successful recipe write:
at least one tag, a non-empty set of ingredient lines with pairwise
distinct ingredient references, every amount at least 1, and
cooking_time in [1, 32000]. -/
def recipeWriteInvariant (db : Db) (rid : Nat) : Prop :=
  ∃ r ∈ db.recipes, r.id = rid ∧
    r.tags ≠ [] ∧
    recipeLines db rid ≠ [] ∧
    ((recipeLines db rid).map (fun l => l.ingredient)).Nodup ∧
    (∀ l ∈ recipeLines db rid, 1 ≤ l.amount) ∧
    1 ≤ r.cooking_time ∧ r.cooking_time ≤ 32000

/-- Foreign-key soundness of the line table: every line points at an
existing recipe (enforced by the database FK constraint). -/
def linesFkOk (db : Db) : Prop :=
  ∀ l ∈ db.lines, ∃ r ∈ db.recipes, r.id = l.recipe

/-! ### Claim-level properties of the shopping-list aggregation -/

/-- Arithmetic sum of the amounts of every stored line whose recipe is
in the user's cart and whose ingredient carries the (name, unit) pair. -/
def contributingSum (db : Db) (u : Nat) (nm un : String) : Int :=
  ((db.lines.filter (fun l =>
      (userCartRecipeIds db u).contains l.recipe &&
        (linePair db l == (nm, un)))).map (fun l => l.amount)).sum

/-- Every reported row's total is the arithmetic sum of all
contributing lines' amounts for its (name, unit) pair. -/
def aggSumsOk (db : Db) (u : Nat) : Prop :=
  ∀ row ∈ aggRows db u, row.total = contributingSum db u row.name row.unit

/-- A (name, unit) pair is reported exactly when some line of some
recipe in the cart carries it: every line of the cart is aggregated. -/
def aggPairsComplete (db : Db) (u : Nat) : Prop :=
  ∀ nm un : String,
    (∃ row ∈ aggRows db u, row.name = nm ∧ row.unit = un) ↔
      ∃ l ∈ db.lines, (userCartRecipeIds db u).contains l.recipe = true ∧
        linePair db l = (nm, un)

/-- Output rows are sorted by ingredient name ascending. -/
def aggSortedByName (db : Db) (u : Nat) : Prop :=
  List.Sorted rowNameLe (aggRows db u)

/-- Reordering the cart rows permutes nothing essential: the output
rows are the same up to order (ties on equal names aside) and every
pair's reported total is unchanged. -/
def aggOrderIndependent (db : Db) (u : Nat) : Prop :=
  ∀ cart' : List ShoppingCartRow, cart' ~ db.cart →
    aggRows { db with cart := cart' } u ~ aggRows db u ∧
      ∀ k : String × String,
        pairTotal { db with cart := cart' } u k = pairTotal db u k

/-! ### Concrete databases used by the claim witnesses -/

/-- Sample database: two recipes by user 1, both in user 1's cart,
sharing the flour ingredient. -/
def sampleDb : Db :=
  { ingredients := [{ id := 1, name := "flour", measurement_unit := "г" },
                    { id := 2, name := "milk", measurement_unit := "мл" },
                    { id := 3, name := "sugar", measurement_unit := "г" }],
    recipes := [{ id := 1, author := 1, name := "Cake", text := "",
                  cooking_time := 10, tags := [1] },
                { id := 2, author := 1, name := "Pie", text := "",
                  cooking_time := 20, tags := [1] }],
    lines := [{ id := 10, recipe := 1, ingredient := 1, amount := 200 },
              { id := 11, recipe := 2, ingredient := 1, amount := 300 },
              { id := 12, recipe := 2, ingredient := 2, amount := 100 }],
    recipeIngredient := [],
    cart := [{ user := 1, recipe := 1 }, { user := 1, recipe := 2 }],
    favorites := [],
    follows := [] }

/-- Database for the update scenario of C3: one recipe (author 1) with
ingredient lines flour (row 10, amount 200) and milk (row 11,
amount 50). -/
def c3Db : Db :=
  { ingredients := [{ id := 1, name := "flour", measurement_unit := "г" },
                    { id := 2, name := "milk", measurement_unit := "мл" },
                    { id := 3, name := "sugar", measurement_unit := "г" }],
    recipes := [{ id := 1, author := 1, name := "Cake", text := "",
                  cooking_time := 10, tags := [1] }],
    lines := [{ id := 10, recipe := 1, ingredient := 1, amount := 200 },
              { id := 11, recipe := 1, ingredient := 2, amount := 50 }],
    recipeIngredient := [],
    cart := [],
    favorites := [],
    follows := [] }

/-- The spec's update scenario: drop flour, keep milk with a new
amount, add sugar. -/
def c3PatchOverlap : RecipePatch :=
  { name := none, text := none, cooking_time := none, tags := some [1],
    ingredients := some [{ id := 2, amount := 75 }, { id := 3, amount := 100 }] }

/-- An update whose new ingredient set is disjoint from the stored
one: only sugar. -/
def c3PatchFresh : RecipePatch :=
  { name := none, text := none, cooking_time := none, tags := some [1],
    ingredients := some [{ id := 3, amount := 100 }] }

/-- Database for C4: two recipes in user 1's cart, both containing
only flour, so the aggregation yields the single row (flour, г, 500). -/
def c4Db : Db :=
  { ingredients := [{ id := 1, name := "flour", measurement_unit := "г" }],
    recipes := [{ id := 1, author := 1, name := "Cake", text := "",
                  cooking_time := 10, tags := [1] },
                { id := 2, author := 1, name := "Pie", text := "",
                  cooking_time := 20, tags := [1] }],
    lines := [{ id := 10, recipe := 1, ingredient := 1, amount := 200 },
              { id := 11, recipe := 2, ingredient := 1, amount := 300 }],
    recipeIngredient := [],
    cart := [{ user := 1, recipe := 1 }, { user := 1, recipe := 2 }],
    favorites := [],
    follows := [] }

/-- Database for C5: stored recipes and lines, but user 1's cart is
empty. -/
def c5Db : Db :=
  { ingredients := [{ id := 1, name := "flour", measurement_unit := "г" }],
    recipes := [{ id := 1, author := 1, name := "Cake", text := "",
                  cooking_time := 10, tags := [1] }],
    lines := [{ id := 10, recipe := 1, ingredient := 1, amount := 200 }],
    recipeIngredient := [],
    cart := [],
    favorites := [],
    follows := [] }

/-- Create request used by the C2 witness. -/
def c2Draft : RecipePatch :=
  { name := some "Soup", text := some "x", cooking_time := some 30,
    tags := some [1], ingredients := some [{ id := 2, amount := 5 }] }

/-- Resulting state of the witnessed create (the error fallback is
never reached). -/
def c2CreateDb : Db :=
  match createRecipe c5Db 1 c2Draft with
  | Except.ok (d, _) => d
  | Except.error _ => c5Db

/-- Update request used by the C2 witness. -/
def c2UpdPatch : RecipePatch :=
  { name := none, text := none, cooking_time := some 15,
    tags := some [2], ingredients := some [{ id := 5, amount := 7 }] }

/-- Resulting state of the witnessed update. -/
def c2UpdateDb : Db := (updateRecipe c5Db 1 1 c2UpdPatch).1

/-! ### Claim-level properties of relation removal -/

/-- Successful-removal contract of the Follow DELETE branch: success,
no (user, author) row left, every non-matching row kept with its
multiplicity, and exactly the matching rows gone from the length. -/
def removeFollowOk (rows : List FollowRow) (u a : Nat) : Prop :=
  (followRemove rows u a).2 = Except.ok () ∧
    followCount (followRemove rows u a).1 u a = 0 ∧
    (∀ g ∈ rows, ¬(g.user = u ∧ g.author = a) →
      List.count g (followRemove rows u a).1 = List.count g rows) ∧
    (followRemove rows u a).1.length + followCount rows u a = rows.length

/-- Successful-removal contract of the favorite DELETE branch. -/
def removeFavoriteOk (rows : List FavoriteRow) (u rid : Nat) : Prop :=
  (favoriteRemove rows u rid).2 = Except.ok () ∧
    favoriteCount (favoriteRemove rows u rid).1 u rid = 0 ∧
    (∀ g ∈ rows, ¬(g.user = u ∧ g.recipe = rid) →
      List.count g (favoriteRemove rows u rid).1 = List.count g rows) ∧
    (favoriteRemove rows u rid).1.length + favoriteCount rows u rid =
      rows.length

/-- Successful-removal contract of the shopping-cart DELETE branch. -/
def removeCartOk (rows : List ShoppingCartRow) (u rid : Nat) : Prop :=
  (cartRemove rows u rid).2 = Except.ok () ∧
    cartCount (cartRemove rows u rid).1 u rid = 0 ∧
    (∀ g ∈ rows, ¬(g.user = u ∧ g.recipe = rid) →
      List.count g (cartRemove rows u rid).1 = List.count g rows) ∧
    (cartRemove rows u rid).1.length + cartCount rows u rid = rows.length

/-! ### General list lemmas -/

/-- Every member of a list is bounded by its max-fold. -/
theorem le_foldr_max {x : Nat} :
    ∀ {ids : List Nat}, x ∈ ids → x ≤ ids.foldr max 0
  | [], h => absurd h (List.not_mem_nil x)
  | i :: is, h => by
    rcases List.mem_cons.mp h with rfl | h'
    · exact le_max_left _ _
    · exact le_trans (le_foldr_max h') (le_max_right _ _)

/-- A fresh id is strictly above every id in the list. -/
theorem lt_freshId {x : Nat} {ids : List Nat} (h : x ∈ ids) : x < freshId ids :=
  Nat.lt_succ_of_le (le_foldr_max h)

/-- Filtering by a disjunction of disjoint predicates splits, up to
permutation, into the two filters. -/
theorem filter_or_perm {α : Type} (a b : α → Bool) :
    ∀ xs : List α, (∀ x ∈ xs, ¬(a x = true ∧ b x = true)) →
      xs.filter (fun x => a x || b x) ~ xs.filter a ++ xs.filter b
  | [], _ => by simp
  | x :: xs, h => by
    have hx := h x (List.mem_cons_self x xs)
    have ih := filter_or_perm a b xs (fun y hy => h y (List.mem_cons_of_mem x hy))
    cases hav : a x with
    | true =>
      have hbv : b x = false := by
        cases hbv : b x with
        | true => exact absurd ⟨hav, hbv⟩ hx
        | false => rfl
      simp only [List.filter_cons, hav, hbv, Bool.true_or, if_pos]
      exact ih.cons x
    | false =>
      cases hbv : b x with
      | true =>
        simp only [List.filter_cons, hav, hbv, Bool.false_or, if_pos]
        exact (ih.cons x).trans List.perm_middle.symm
      | false =>
        simp only [List.filter_cons, hav, hbv, Bool.false_or, if_neg]
        exact ih

/-- Filtering distributes over `flatMap`. -/
theorem filter_flatMap_eq {α β : Type} (l : List α) (f : α → List β)
    (q : β → Bool) :
    (l.flatMap f).filter q = l.flatMap (fun a => (f a).filter q) := by
  induction l with
  | nil => simp
  | cons x xs ih => simp [List.filter_append, ih]

/-- A join over duplicate-free keys is, up to permutation, a single
filter by key membership. -/
theorem flatMap_filter_perm {α : Type} (xs : List α) (key : α → Nat)
    (p : α → Bool) :
    ∀ rids : List Nat, rids.Nodup →
      (rids.flatMap (fun rid => xs.filter (fun l => p l && (key l == rid)))) ~
        xs.filter (fun l => p l && rids.contains (key l))
  | [], _ => by simp
  | rid :: rids, h => by
    have hnd := List.nodup_cons.mp h
    have ih := flatMap_filter_perm xs key p rids hnd.2
    have hsplit :
        xs.filter (fun l => (p l && (key l == rid)) ||
            (p l && rids.contains (key l))) ~
          xs.filter (fun l => p l && (key l == rid)) ++
            xs.filter (fun l => p l && rids.contains (key l)) := by
      refine filter_or_perm _ _ xs (fun x _ hx => ?_)
      rcases hx with ⟨h1, h2⟩
      have hk : key x = rid := by
        have h1' := (Bool.and_eq_true _ _).mp h1
        exact eq_of_beq h1'.2
      have hm : rid ∈ rids := by
        have h2' := (Bool.and_eq_true _ _).mp h2
        have hmem : key x ∈ rids := by simpa [List.contains] using h2'.2
        rwa [hk] at hmem
      exact hnd.1 hm
    have hcongr :
        xs.filter (fun l => p l && (rid :: rids).contains (key l)) =
          xs.filter (fun l => (p l && (key l == rid)) ||
            (p l && rids.contains (key l))) := by
      refine List.filter_congr (fun x _ => ?_)
      simp [List.contains_cons, Bool.and_or_distrib_left, Bool.beq_eq_decide_eq]
    calc (rid :: rids).flatMap
          (fun r' => xs.filter (fun l => p l && (key l == r'))) =
            xs.filter (fun l => p l && (key l == rid)) ++
              rids.flatMap (fun r' => xs.filter (fun l => p l && (key l == r'))) := by
          simp
      _ ~ xs.filter (fun l => p l && (key l == rid)) ++
            xs.filter (fun l => p l && rids.contains (key l)) :=
          (List.Perm.append_left _ ih)
      _ ~ xs.filter (fun l => (p l && (key l == rid)) ||
            (p l && rids.contains (key l))) := hsplit.symm
      _ = xs.filter (fun l => p l && (rid :: rids).contains (key l)) :=
          hcongr.symm

/-- A filter of the cart join is, up to permutation, a filter of the
line table, provided the user's cart holds no duplicate recipe (the
`unique_shopping_list_recipe` constraint). -/
theorem cartLines_filter_perm (db : Db) (u : Nat)
    (hnodup : (userCartRecipeIds db u).Nodup) (q : IngredientLine → Bool) :
    (cartLines db u).filter q ~
      db.lines.filter
        (fun l => q l && (userCartRecipeIds db u).contains l.recipe) := by
  have h1 : (cartLines db u).filter q =
      (userCartRecipeIds db u).flatMap
        (fun rid => db.lines.filter (fun l => q l && (l.recipe == rid))) := by
    rw [cartLines, filter_flatMap_eq]
    refine congrArg _ ?_
    funext rid
    rw [List.filter_filter]
  rw [h1]
  exact flatMap_filter_perm db.lines (fun l => l.recipe) q _ hnodup

/-- The annotated `total` of a grouping key is the arithmetic sum of
every contributing line's amount. -/
theorem pairTotal_eq_contributingSum (db : Db) (u : Nat)
    (hnodup : (userCartRecipeIds db u).Nodup) (k : String × String) :
    pairTotal db u k = contributingSum db u k.1 k.2 := by
  have hperm := cartLines_filter_perm db u hnodup (fun l => linePair db l == k)
  have hsum := (hperm.map (fun l => l.amount)).sum_eq
  have hcomm : db.lines.filter (fun l => (linePair db l == k) &&
        (userCartRecipeIds db u).contains l.recipe) =
      db.lines.filter (fun l =>
        (userCartRecipeIds db u).contains l.recipe &&
          (linePair db l == (k.1, k.2))) := by
    refine List.filter_congr (fun x _ => ?_)
    rw [Bool.and_comm]
  rw [pairTotal, contributingSum, ← hcomm]
  exact hsum

/-- Claim C1.  For every user whose cart satisfies the uniqueness
constraint, the shopping-list aggregation of
`download_shopping_cart` reports, for each (ingredient name,
measurement unit) pair, exactly the arithmetic sum of all contributing
lines' amounts; a pair is reported iff some cart line carries it; the
rows are sorted by ingredient name ascending; and the result is
independent of the order in which recipes were added to the cart. -/
theorem C1_shopping_list_aggregation (db : Db) (u : Nat)
    (hnodup : (userCartRecipeIds db u).Nodup) :
    aggSumsOk db u ∧ aggPairsComplete db u ∧ aggSortedByName db u ∧
      aggOrderIndependent db u := by
  refine ⟨?_, ?_, ?_, ?_⟩
  · intro row hrow
    rw [aggRows] at hrow
    rcases List.mem_map.mp hrow with ⟨k, _, rfl⟩
    exact pairTotal_eq_contributingSum db u hnodup k
  · intro nm un
    constructor
    · rintro ⟨row, hrow, hn, hu⟩
      rw [aggRows] at hrow
      rcases List.mem_map.mp hrow with ⟨k, hk, rfl⟩
      have hk' : k ∈ cartPairs db u :=
        ((List.perm_insertionSort pairNameLe _).mem_iff).mp hk
      have hk'' : k ∈ (cartLines db u).map (linePair db) :=
        List.mem_dedup.mp hk'
      rcases List.mem_map.mp hk'' with ⟨l, hl, hpair⟩
      rcases List.mem_flatMap.mp hl with ⟨rid, hrid, hlf⟩
      rcases List.mem_filter.mp hlf with ⟨hline, hbeq⟩
      refine ⟨l, hline, ?_, ?_⟩
      · have : l.recipe = rid := eq_of_beq hbeq
        simp [List.contains, this, hrid]
      · rw [hpair]
        simp only at hn hu
        rw [← hn, ← hu]
    · rintro ⟨l, hline, hcont, hpair⟩
      have hrid : l.recipe ∈ userCartRecipeIds db u := by
        simpa [List.contains] using hcont
      have hl : l ∈ cartLines db u :=
        List.mem_flatMap.mpr
          ⟨l.recipe, hrid, List.mem_filter.mpr ⟨hline, by simp⟩⟩
      have hk : (nm, un) ∈ cartPairs db u :=
        List.mem_dedup.mpr (List.mem_map.mpr ⟨l, hl, hpair⟩)
      have hk' : (nm, un) ∈ List.insertionSort pairNameLe (cartPairs db u) :=
        ((List.perm_insertionSort pairNameLe _).mem_iff).mpr hk
      exact ⟨{ name := nm, unit := un, total := pairTotal db u (nm, un) },
        List.mem_map.mpr ⟨(nm, un), hk', rfl⟩, rfl, rfl⟩
  · rw [aggSortedByName, aggRows]
    have hs := List.sorted_insertionSort pairNameLe (cartPairs db u)
    exact List.Pairwise.map _ (fun _ _ h => h) hs
  · intro cart' hc
    have hids : userCartRecipeIds { db with cart := cart' } u ~
        userCartRecipeIds db u := (hc.filter _).map _
    have hlines : cartLines { db with cart := cart' } u ~ cartLines db u :=
      hids.flatMap_right _
    have htot : ∀ k, pairTotal { db with cart := cart' } u k =
        pairTotal db u k := by
      intro k
      exact ((hlines.filter _).map _).sum_eq
    have hpairs : cartPairs { db with cart := cart' } u ~ cartPairs db u :=
      (hlines.map _).dedup
    refine ⟨?_, htot⟩
    rw [aggRows, aggRows]
    have hfun :
        ((List.insertionSort pairNameLe
            (cartPairs { db with cart := cart' } u)).map
          (fun k => AggRow.mk k.1 k.2
            (pairTotal { db with cart := cart' } u k))) =
        ((List.insertionSort pairNameLe
            (cartPairs { db with cart := cart' } u)).map
          (fun k => AggRow.mk k.1 k.2 (pairTotal db u k))) :=
      List.map_congr_left (fun k _ => by rw [htot k])
    rw [hfun]
    refine Perm.map _ ?_
    exact (List.perm_insertionSort _ _).trans
      (hpairs.trans (List.perm_insertionSort _ _).symm)


/-- Witness for C1 at the sample database. -/
theorem C1_witness :
    aggSumsOk sampleDb 1 ∧ aggPairsComplete sampleDb 1 ∧
      aggSortedByName sampleDb 1 ∧ aggOrderIndependent sampleDb 1 :=
  C1_shopping_list_aggregation sampleDb 1 (by decide)




/-- Claim C3 fails on the code: `update` never performs the exact
replacement.  (1) The spec's own scenario — an update keeping one
stored ingredient with a changed amount — dies with `IntegrityError`,
because `add_ingredients` bulk-creates a second (recipe, milk) row
instead of updating row 11.  (2) An update supplying a disjoint
ingredient set succeeds but leaves the old flour and milk rows stored,
so the stored set is the union, not the supplied set.  (3) The dead
helper `update_ingredients` — never called by `update` — produces
exactly the replacement the spec describes: row 11 keeps its identity
with amount 75, the flour row is gone, a fresh sugar row is added. -/
theorem C3_update_divergence :
    (updateRecipe c3Db 1 1 c3PatchOverlap).2 =
        Except.error "IntegrityError: unique_ingredient_recipe" ∧
      ((updateRecipe c3Db 1 1 c3PatchFresh).1.lines.filter
          (fun l => l.recipe == 1)).map (fun l => l.ingredient) = [1, 2, 3] ∧
      (update_ingredients c3Db 1
          [{ id := 2, amount := 75 }, { id := 3, amount := 100 }]).lines =
        [{ id := 11, recipe := 1, ingredient := 2, amount := 75 },
         { id := 12, recipe := 1, ingredient := 3, amount := 100 }] :=
  ⟨rfl, rfl, rfl⟩


/-- Claim C4 fails on the code: the downloadable body produced by
`download_shopping_cart` is bare `name (unit) - total` lines — no
dated header, no `N. Name — amount unit` numbering, no recipe-title
section — while the claimed format is exactly what the never-called
`render_shopping_list` helper produces for the same data. -/
theorem C4_download_format_divergence :
    downloadShoppingCartText c4Db 1 = "flour (г) - 500" ∧
      render_shopping_list "12-10-2026"
          [[("ingredient__name", "flour"), ("total_amount", "500"),
            ("ingredient__measurement_unit", "г")]]
          [{ name := some "Cake" }, { name := some "Pie" }] =
        Except.ok ("Список покупок составлен: 12-10-2026\n" ++
          "Список продуктов:\n" ++
          "1. Flour — 500 г\n" ++
          "\n" ++
          "Рецепты, для которых составлен список покупок:\n" ++
          "1. Cake\n2. Pie") :=
  ⟨rfl, rfl⟩


/-- Claim C5 fails on the code: on an empty cart the download endpoint
does succeed (no error), but its body is the empty string — it does
not state "no ingredients" / "no recipes".  The never-called
`render_shopping_list` helper is what produces those statements. -/
theorem C5_empty_cart_divergence :
    aggRows c5Db 1 = [] ∧
      downloadShoppingCartText c5Db 1 = "" ∧
      render_shopping_list "12-10-2026" [] [] =
        Except.ok ("Список покупок составлен: 12-10-2026\n" ++
          "Список продуктов:\n" ++
          "Нет ингредиентов\n" ++
          "\n" ++
          "Рецепты, для которых составлен список покупок:\n" ++
          "Нет рецептов") :=
  ⟨rfl, rfl, rfl⟩

/-- Anything in the follow table after an add was already there or is
the freshly inserted non-self pair. -/
theorem followAdd_mem (s : List FollowRow) (u a : Nat) :
    ∀ f ∈ (followAdd s u a).1,
      f ∈ s ∨ (f = { user := u, author := a } ∧ u ≠ a) := by
  intro f hf
  rw [followAdd] at hf
  split at hf
  · exact Or.inl hf
  · split at hf
    · next hne =>
      exact Or.inl hf
    · next hne =>
      split at hf
      · exact Or.inl hf
      · rcases List.mem_append.mp hf with h | h
        · exact Or.inl h
        · refine Or.inr ⟨by simpa using h, fun hEq => hne (by simp [hEq])⟩

/-- Anything in the follow table after a remove was already there. -/
theorem followRemove_mem (s : List FollowRow) (u a : Nat) :
    ∀ f ∈ (followRemove s u a).1, f ∈ s := by
  intro f hf
  rw [followRemove] at hf
  split at hf
  · exact hf
  · exact (List.mem_filter.mp hf).1

/-- Claim C6.  In every follow-table state reachable through the
subscribe/unsubscribe operations no row is a self-follow, and adding a
self-follow is rejected with the self-subscription error, leaving the
table unchanged. -/
theorem C6_no_self_follow (s : List FollowRow) (hs : FollowReach s) :
    (∀ f ∈ s, f.user ≠ f.author) ∧
      ∀ u, followAdd s u u =
        (s, Except.error "Вы не можете подписаться на самого себя!") := by
  have hinv : ∀ f ∈ s, f.user ≠ f.author := by
    induction hs with
    | init => intro f hf; exact absurd hf (List.not_mem_nil f)
    | add s u a _ ih =>
      intro f hf
      rcases followAdd_mem s u a f hf with h | ⟨rfl, hne⟩
      · exact ih f h
      · exact hne
    | remove s u a _ ih =>
      intro f hf
      exact ih f (followRemove_mem s u a f hf)
  refine ⟨hinv, fun u => ?_⟩
  have hany : (s.any (fun f => f.user == u && f.author == u)) = false := by
    rw [List.any_eq_false]
    intro f hf hp
    rcases (Bool.and_eq_true _ _).mp hp with ⟨h1, h2⟩
    exact hinv f hf ((eq_of_beq h1).trans (eq_of_beq h2).symm)
  rw [followAdd, hany]
  simp

/-- Witness for C6: in the reachable one-row state {(1, 2)}, the
self-follow (1, 1) is rejected and nothing changes. -/
theorem C6_witness :
    followAdd [{ user := 1, author := 2 }] 1 1 =
      ([{ user := 1, author := 2 }],
        Except.error "Вы не можете подписаться на самого себя!") :=
  (C6_no_self_follow [{ user := 1, author := 2 }]
    (FollowReach.add [] 1 2 FollowReach.init)).2 1

/-- A zero match count over a list means no element satisfies the
predicate. -/
theorem count_zero_any_false {α : Type} (p : α → Bool) {rows : List α}
    (h : (rows.filter p).length = 0) : rows.any p = false := by
  rw [List.length_eq_zero] at h
  rw [List.any_eq_false]
  intro x hx hpx
  have hmem : x ∈ rows.filter p := List.mem_filter.mpr ⟨hx, hpx⟩
  rw [h] at hmem
  exact absurd hmem (List.not_mem_nil x)

/-- Double-add contract for the Follow kind. -/
theorem followAdd_twice (rows : List FollowRow) (u a : Nat) (hne : u ≠ a)
    (h0 : followCount rows u a = 0) :
    (followAdd rows u a).2 = Except.ok () ∧
      (followAdd (followAdd rows u a).1 u a).2 =
        Except.error "Вы уже подписаны на этого пользователя!" ∧
      (followAdd (followAdd rows u a).1 u a).1 = (followAdd rows u a).1 ∧
      followCount (followAdd rows u a).1 u a = 1 := by
  have h0' : (rows.filter (fun f => f.user == u && f.author == a)).length = 0 :=
    h0
  have hany := count_zero_any_false _ h0'
  have hbeq : (u == a) = false := beq_eq_false_iff_ne.mpr hne
  have hbeq' : (a == u) = false := beq_eq_false_iff_ne.mpr (Ne.symm hne)
  have hfst : (followAdd rows u a).1 =
      rows ++ [{ user := u, author := a }] := by
    simp [followAdd, hany, hbeq, followConstraintOk, hbeq']
  have hnil : rows.filter (fun f => f.user == u && f.author == a) = [] :=
    List.length_eq_zero.mp h0'
  have hany2 : ((rows ++ [({ user := u, author := a } : FollowRow)]).any
      (fun f => f.user == u && f.author == a)) = true := by
    simp
  refine ⟨?_, ?_, ?_, ?_⟩
  · simp [followAdd, hany, hbeq, followConstraintOk, hbeq']
  · rw [hfst]
    simp [followAdd, hany2]
  · rw [hfst]
    simp [followAdd, hany2]
  · rw [hfst, followCount, List.filter_append, hnil]
    simp

/-- Double-add contract for the Favorite kind. -/
theorem favoriteAdd_twice (rows : List FavoriteRow) (u rid : Nat)
    (h0 : favoriteCount rows u rid = 0) :
    (favoriteAdd rows u rid).2 = Except.ok () ∧
      (favoriteAdd (favoriteAdd rows u rid).1 u rid).2 =
        Except.error "The fields user, recipe must make a unique set." ∧
      (favoriteAdd (favoriteAdd rows u rid).1 u rid).1 =
        (favoriteAdd rows u rid).1 ∧
      favoriteCount (favoriteAdd rows u rid).1 u rid = 1 := by
  have h0' : (rows.filter (fun f => f.user == u && f.recipe == rid)).length = 0 :=
    h0
  have hany := count_zero_any_false _ h0'
  have hfst : (favoriteAdd rows u rid).1 =
      rows ++ [{ user := u, recipe := rid }] := by
    simp [favoriteAdd, hany]
  have hnil : rows.filter (fun f => f.user == u && f.recipe == rid) = [] :=
    List.length_eq_zero.mp h0'
  have hany2 : ((rows ++ [({ user := u, recipe := rid } : FavoriteRow)]).any
      (fun f => f.user == u && f.recipe == rid)) = true := by
    simp
  refine ⟨?_, ?_, ?_, ?_⟩
  · simp [favoriteAdd, hany]
  · rw [hfst]
    simp [favoriteAdd, hany2]
  · rw [hfst]
    simp [favoriteAdd, hany2]
  · rw [hfst, favoriteCount, List.filter_append, hnil]
    simp

/-- Double-add contract for the ShoppingCart kind. -/
theorem cartAdd_twice (rows : List ShoppingCartRow) (u rid : Nat)
    (h0 : cartCount rows u rid = 0) :
    (cartAdd rows u rid).2 = Except.ok () ∧
      (cartAdd (cartAdd rows u rid).1 u rid).2 =
        Except.error "The fields user, recipe must make a unique set." ∧
      (cartAdd (cartAdd rows u rid).1 u rid).1 = (cartAdd rows u rid).1 ∧
      cartCount (cartAdd rows u rid).1 u rid = 1 := by
  have h0' : (rows.filter (fun f => f.user == u && f.recipe == rid)).length = 0 :=
    h0
  have hany := count_zero_any_false _ h0'
  have hfst : (cartAdd rows u rid).1 =
      rows ++ [{ user := u, recipe := rid }] := by
    simp [cartAdd, hany]
  have hnil : rows.filter (fun f => f.user == u && f.recipe == rid) = [] :=
    List.length_eq_zero.mp h0'
  have hany2 : ((rows ++ [({ user := u, recipe := rid } : ShoppingCartRow)]).any
      (fun f => f.user == u && f.recipe == rid)) = true := by
    simp
  refine ⟨?_, ?_, ?_, ?_⟩
  · simp [cartAdd, hany]
  · rw [hfst]
    simp [cartAdd, hany2]
  · rw [hfst]
    simp [cartAdd, hany2]
  · rw [hfst, cartCount, List.filter_append, hnil]
    simp

/-- Claim C7.  For each relation kind (Follow, Favorite,
ShoppingCartEntry) and each absent (user, target) pair, adding the
relation twice in sequence leaves exactly one stored row: the first
call succeeds, the second fails with the duplicate error and changes
nothing. -/
theorem C7_add_relation_twice :
    (∀ (rows : List FollowRow) (u a : Nat), u ≠ a →
      followCount rows u a = 0 →
        (followAdd rows u a).2 = Except.ok () ∧
          (followAdd (followAdd rows u a).1 u a).2 =
            Except.error "Вы уже подписаны на этого пользователя!" ∧
          (followAdd (followAdd rows u a).1 u a).1 = (followAdd rows u a).1 ∧
          followCount (followAdd rows u a).1 u a = 1) ∧
    (∀ (rows : List FavoriteRow) (u rid : Nat), favoriteCount rows u rid = 0 →
        (favoriteAdd rows u rid).2 = Except.ok () ∧
          (favoriteAdd (favoriteAdd rows u rid).1 u rid).2 =
            Except.error "The fields user, recipe must make a unique set." ∧
          (favoriteAdd (favoriteAdd rows u rid).1 u rid).1 =
            (favoriteAdd rows u rid).1 ∧
          favoriteCount (favoriteAdd rows u rid).1 u rid = 1) ∧
    (∀ (rows : List ShoppingCartRow) (u rid : Nat), cartCount rows u rid = 0 →
        (cartAdd rows u rid).2 = Except.ok () ∧
          (cartAdd (cartAdd rows u rid).1 u rid).2 =
            Except.error "The fields user, recipe must make a unique set." ∧
          (cartAdd (cartAdd rows u rid).1 u rid).1 = (cartAdd rows u rid).1 ∧
          cartCount (cartAdd rows u rid).1 u rid = 1) :=
  ⟨fun rows u a hne h0 => followAdd_twice rows u a hne h0,
   fun rows u rid h0 => favoriteAdd_twice rows u rid h0,
   fun rows u rid h0 => cartAdd_twice rows u rid h0⟩

/-- Witness for C7 at the empty tables. -/
theorem C7_witness :
    ((followAdd [] 1 2).2 = Except.ok () ∧
      (followAdd (followAdd [] 1 2).1 1 2).2 =
        Except.error "Вы уже подписаны на этого пользователя!" ∧
      (followAdd (followAdd [] 1 2).1 1 2).1 = (followAdd [] 1 2).1 ∧
      followCount (followAdd [] 1 2).1 1 2 = 1) ∧
    ((favoriteAdd [] 1 1).2 = Except.ok () ∧
      (favoriteAdd (favoriteAdd [] 1 1).1 1 1).2 =
        Except.error "The fields user, recipe must make a unique set." ∧
      (favoriteAdd (favoriteAdd [] 1 1).1 1 1).1 = (favoriteAdd [] 1 1).1 ∧
      favoriteCount (favoriteAdd [] 1 1).1 1 1 = 1) ∧
    ((cartAdd [] 1 1).2 = Except.ok () ∧
      (cartAdd (cartAdd [] 1 1).1 1 1).2 =
        Except.error "The fields user, recipe must make a unique set." ∧
      (cartAdd (cartAdd [] 1 1).1 1 1).1 = (cartAdd [] 1 1).1 ∧
      cartCount (cartAdd [] 1 1).1 1 1 = 1) :=
  ⟨C7_add_relation_twice.1 [] 1 2 (by decide) (by decide),
   C7_add_relation_twice.2.1 [] 1 1 (by decide),
   C7_add_relation_twice.2.2 [] 1 1 (by decide)⟩

/-- Count of a non-matching element survives filtering out matches. -/
theorem count_filter_not {α : Type} [DecidableEq α] (p : α → Bool)
    (rows : List α) (g : α) (hg : p g = false) :
    List.count g (rows.filter (fun f => !(p f))) = List.count g rows :=
  List.count_filter (by simp [hg])

/-- Filtering out the matches removes exactly the matching rows from
the length. -/
theorem length_filter_not_add {α : Type} (p : α → Bool) (rows : List α) :
    (rows.filter (fun f => !(p f))).length + (rows.filter p).length =
      rows.length := by
  induction rows with
  | nil => rfl
  | cons x xs ih =>
    cases hpx : p x with
    | true =>
      simp [List.filter_cons, hpx]
      omega
    | false =>
      simp [List.filter_cons, hpx]
      omega

/-- No matching row survives filtering out the matches. -/
theorem filter_not_filter_nil {α : Type} (p : α → Bool) (rows : List α) :
    (rows.filter (fun f => !(p f))).filter p = [] := by
  rw [List.filter_filter]
  have : ∀ x ∈ rows, (fun f => p f && !(p f)) x = (fun _ => false) x := by
    intro x _
    simp
  rw [List.filter_congr this, List.filter_false]

/-- Removal contract for the Follow kind. -/
theorem followRemove_spec (rows : List FollowRow) (u a : Nat) :
    (followCount rows u a = 0 →
      followRemove rows u a = (rows, Except.error "Подписка не найдена")) ∧
      (followCount rows u a ≠ 0 → removeFollowOk rows u a) := by
  constructor
  · intro h0
    have hnil : rows.filter (fun f => f.user == u && f.author == a) = [] :=
      List.length_eq_zero.mp h0
    rw [followRemove, hnil]
    rfl
  · intro h0
    have hne : rows.filter (fun f => f.user == u && f.author == a) ≠ [] := by
      intro hnil
      exact h0 (by rw [followCount, hnil]; rfl)
    have hemp : (rows.filter
        (fun f => f.user == u && f.author == a)).isEmpty = false := by
      rw [List.isEmpty_eq_false]
      exact hne
    have hfst : (followRemove rows u a).1 =
        rows.filter (fun f => !(f.user == u && f.author == a)) := by
      rw [followRemove]
      simp [hemp]
    have hsnd : (followRemove rows u a).2 = Except.ok () := by
      rw [followRemove]
      simp [hemp]
    refine ⟨hsnd, ?_, ?_, ?_⟩
    · rw [followCount, hfst, filter_not_filter_nil]
      rfl
    · intro g hg hgne
      rw [hfst]
      refine count_filter_not _ rows g ?_
      cases h : (g.user == u && g.author == a) with
      | false => rfl
      | true =>
        rcases (Bool.and_eq_true _ _).mp h with ⟨h1, h2⟩
        exact absurd ⟨eq_of_beq h1, eq_of_beq h2⟩ hgne
    · rw [hfst, followCount]
      exact length_filter_not_add _ rows

/-- Removal contract for the Favorite kind. -/
theorem favoriteRemove_spec (rows : List FavoriteRow) (u rid : Nat) :
    (favoriteCount rows u rid = 0 →
      favoriteRemove rows u rid =
        (rows, Except.error "Этого рецепта нет в избранном.")) ∧
      (favoriteCount rows u rid ≠ 0 → removeFavoriteOk rows u rid) := by
  constructor
  · intro h0
    have hnil : rows.filter (fun f => f.user == u && f.recipe == rid) = [] :=
      List.length_eq_zero.mp h0
    rw [favoriteRemove, hnil]
    rfl
  · intro h0
    have hne : rows.filter (fun f => f.user == u && f.recipe == rid) ≠ [] := by
      intro hnil
      exact h0 (by rw [favoriteCount, hnil]; rfl)
    have hemp : (rows.filter
        (fun f => f.user == u && f.recipe == rid)).isEmpty = false := by
      rw [List.isEmpty_eq_false]
      exact hne
    have hfst : (favoriteRemove rows u rid).1 =
        rows.filter (fun f => !(f.user == u && f.recipe == rid)) := by
      rw [favoriteRemove]
      simp [hemp]
    have hsnd : (favoriteRemove rows u rid).2 = Except.ok () := by
      rw [favoriteRemove]
      simp [hemp]
    refine ⟨hsnd, ?_, ?_, ?_⟩
    · rw [favoriteCount, hfst, filter_not_filter_nil]
      rfl
    · intro g hg hgne
      rw [hfst]
      refine count_filter_not _ rows g ?_
      cases h : (g.user == u && g.recipe == rid) with
      | false => rfl
      | true =>
        rcases (Bool.and_eq_true _ _).mp h with ⟨h1, h2⟩
        exact absurd ⟨eq_of_beq h1, eq_of_beq h2⟩ hgne
    · rw [hfst, favoriteCount]
      exact length_filter_not_add _ rows

/-- Removal contract for the ShoppingCart kind. -/
theorem cartRemove_spec (rows : List ShoppingCartRow) (u rid : Nat) :
    (cartCount rows u rid = 0 →
      cartRemove rows u rid = (rows, Except.error "Рецепта нет в корзине.")) ∧
      (cartCount rows u rid ≠ 0 → removeCartOk rows u rid) := by
  constructor
  · intro h0
    have hnil : rows.filter (fun f => f.user == u && f.recipe == rid) = [] :=
      List.length_eq_zero.mp h0
    rw [cartRemove, hnil]
    rfl
  · intro h0
    have hne : rows.filter (fun f => f.user == u && f.recipe == rid) ≠ [] := by
      intro hnil
      exact h0 (by rw [cartCount, hnil]; rfl)
    have hemp : (rows.filter
        (fun f => f.user == u && f.recipe == rid)).isEmpty = false := by
      rw [List.isEmpty_eq_false]
      exact hne
    have hfst : (cartRemove rows u rid).1 =
        rows.filter (fun f => !(f.user == u && f.recipe == rid)) := by
      rw [cartRemove]
      simp [hemp]
    have hsnd : (cartRemove rows u rid).2 = Except.ok () := by
      rw [cartRemove]
      simp [hemp]
    refine ⟨hsnd, ?_, ?_, ?_⟩
    · rw [cartCount, hfst, filter_not_filter_nil]
      rfl
    · intro g hg hgne
      rw [hfst]
      refine count_filter_not _ rows g ?_
      cases h : (g.user == u && g.recipe == rid) with
      | false => rfl
      | true =>
        rcases (Bool.and_eq_true _ _).mp h with ⟨h1, h2⟩
        exact absurd ⟨eq_of_beq h1, eq_of_beq h2⟩ hgne
    · rw [hfst, cartCount]
      exact length_filter_not_add _ rows

/-- Claim C8.  For each relation kind, removing an absent (user,
target) pair fails with the not-found error of that endpoint and
changes nothing; removing a stored pair succeeds and deletes exactly
the matching rows, keeping every other row. -/
theorem C8_remove_relation :
    (∀ (rows : List FollowRow) (u a : Nat),
      (followCount rows u a = 0 →
        followRemove rows u a = (rows, Except.error "Подписка не найдена")) ∧
        (followCount rows u a ≠ 0 → removeFollowOk rows u a)) ∧
    (∀ (rows : List FavoriteRow) (u rid : Nat),
      (favoriteCount rows u rid = 0 →
        favoriteRemove rows u rid =
          (rows, Except.error "Этого рецепта нет в избранном.")) ∧
        (favoriteCount rows u rid ≠ 0 → removeFavoriteOk rows u rid)) ∧
    (∀ (rows : List ShoppingCartRow) (u rid : Nat),
      (cartCount rows u rid = 0 →
        cartRemove rows u rid =
          (rows, Except.error "Рецепта нет в корзине.")) ∧
        (cartCount rows u rid ≠ 0 → removeCartOk rows u rid)) :=
  ⟨followRemove_spec, favoriteRemove_spec, cartRemove_spec⟩

/-- Witness for C8: absent pairs on the empty tables, stored pairs on
one-row tables. -/
theorem C8_witness :
    followRemove [] 1 2 = ([], Except.error "Подписка не найдена") ∧
      removeFollowOk [{ user := 1, author := 2 }] 1 2 ∧
      favoriteRemove [] 1 1 =
        ([], Except.error "Этого рецепта нет в избранном.") ∧
      removeFavoriteOk [{ user := 1, recipe := 1 }] 1 1 ∧
      cartRemove [] 1 1 = ([], Except.error "Рецепта нет в корзине.") ∧
      removeCartOk [{ user := 1, recipe := 1 }] 1 1 :=
  ⟨(C8_remove_relation.1 [] 1 2).1 (by decide),
   (C8_remove_relation.1 [{ user := 1, author := 2 }] 1 2).2 (by decide),
   (C8_remove_relation.2.1 [] 1 1).1 (by decide),
   (C8_remove_relation.2.1 [{ user := 1, recipe := 1 }] 1 1).2 (by decide),
   (C8_remove_relation.2.2 [] 1 1).1 (by decide),
   (C8_remove_relation.2.2 [{ user := 1, recipe := 1 }] 1 1).2 (by decide)⟩

/-- Claim C9.  When the acting user is not the recipe's author,
`updateRecipe` fails with the permission error and returns the
database unchanged: no recipe row, tag set or ingredient line is
touched. -/
theorem C9_forbidden_update (db : Db) (actor rid : Nat) (p : RecipePatch)
    (r : Recipe) (hfind : db.recipes.find? (fun q => q.id == rid) = some r)
    (hauthor : r.author ≠ actor) :
    updateRecipe db actor rid p =
      (db, Except.error "У вас нет прав редактировать этот рецепт") := by
  have hbeq : (r.author == actor) = false := beq_eq_false_iff_ne.mpr hauthor
  rw [updateRecipe, hfind]
  simp [hbeq]

/-- Witness for C9: user 2 tries to update user 1's recipe. -/
theorem C9_witness :
    updateRecipe c3Db 2 1 c3PatchFresh =
      (c3Db, Except.error "У вас нет прав редактировать этот рецепт") :=
  C9_forbidden_update c3Db 2 1 c3PatchFresh
    { id := 1, author := 1, name := "Cake", text := "",
      cooking_time := 10, tags := [1] } rfl (by decide)

/-- Claim C10.  `render_shopping_list` raises `ValueError` whenever an
ingredient entry lacks one of its three required keys, and whenever
(the ingredient entries being well-formed) a recipe element lacks a
name; in particular every non-empty row set coming out of the download
aggregation — keyed `total` instead of `total_amount` — is rejected. -/
theorem C10_render_rejects :
    (∀ (date : String) (ing : List DictRow) (rec : List RecipeObj),
      (∃ row ∈ ing, rowFormatOk row = false) →
        render_shopping_list date ing rec =
          Except.error "Некорректный формат данных в ingredients") ∧
    (∀ (date : String) (ing : List DictRow) (rec : List RecipeObj),
      (∀ row ∈ ing, rowFormatOk row = true) → (∃ r ∈ rec, r.name = none) →
        render_shopping_list date ing rec =
          Except.error "Некорректный формат данных в recipes") ∧
    (∀ (db : Db) (u : Nat) (date : String) (rec : List RecipeObj),
      aggRows db u ≠ [] →
        render_shopping_list date (downloadRows db u) rec =
          Except.error "Некорректный формат данных в ingredients") := by
  have hbad : ∀ (date : String) (ing : List DictRow) (rec : List RecipeObj),
      (∃ row ∈ ing, rowFormatOk row = false) →
        render_shopping_list date ing rec =
          Except.error "Некорректный формат данных в ingredients" := by
    intro date ing rec hex
    rcases hex with ⟨row, hrow, hfmt⟩
    have hany : (ing.any (fun row => !(rowFormatOk row))) = true :=
      List.any_eq_true.mpr ⟨row, hrow, by simp [hfmt]⟩
    rw [render_shopping_list, hany]
    simp
  refine ⟨hbad, ?_, ?_⟩
  · intro date ing rec hgood hex
    rcases hex with ⟨r, hr, hnone⟩
    have hany : (ing.any (fun row => !(rowFormatOk row))) = false := by
      rw [List.any_eq_false]
      intro row hrow
      simp [hgood row hrow]
    have hall : (rec.all (fun r => r.name.isSome)) = false := by
      rw [List.all_eq_false]
      exact ⟨r, hr, by simp [hnone]⟩
    rw [render_shopping_list, hany, hall]
    simp
  · intro db u date rec hne
    rcases List.exists_mem_of_ne_nil (aggRows db u) hne with ⟨r0, hr0⟩
    refine hbad date (downloadRows db u) rec
      ⟨downloadRowDict r0, List.mem_map_of_mem downloadRowDict hr0, rfl⟩

/-- Witness for C10: a row missing `total_amount`, a nameless recipe
object, and the sample database's non-empty aggregation. -/
theorem C10_witness :
    render_shopping_list "12-10-2026"
        [[("ingredient__name", "flour"), ("total", "500"),
          ("ingredient__measurement_unit", "г")]] [] =
      Except.error "Некорректный формат данных в ingredients" ∧
    render_shopping_list "12-10-2026"
        [[("ingredient__name", "flour"), ("total_amount", "500"),
          ("ingredient__measurement_unit", "г")]] [{ name := none }] =
      Except.error "Некорректный формат данных в recipes" ∧
    render_shopping_list "12-10-2026" (downloadRows c4Db 1) [] =
      Except.error "Некорректный формат данных в ingredients" :=
  ⟨C10_render_rejects.1 "12-10-2026" _ [] ⟨_, List.mem_cons_self _ _, rfl⟩,
   C10_render_rejects.2.1 "12-10-2026" _ [{ name := none }]
     (by intro row hrow; fin_cases hrow; rfl)
     ⟨_, List.mem_cons_self _ _, rfl⟩,
   C10_render_rejects.2.2 c4Db 1 "12-10-2026" []
     (by rw [show aggRows c4Db 1 =
         [{ name := "flour", unit := "г", total := 500 }] from rfl]
         simp)⟩

/-- Passing the DRF bound check means cooking_time lies in [1, 3200]. -/
theorem cookingTimeField_ok {ct v : Int} (h : cookingTimeField ct = Except.ok v) :
    1 ≤ ct ∧ ct ≤ 3200 := by
  rw [cookingTimeField] at h
  split at h
  · exact absurd h (by simp)
  · split at h
    · exact absurd h (by simp)
    · next h1 h2 => omega

/-- Passing the cooking-time field validation bounds the value. -/
theorem runCookingTime_ok {ct : Int}
    (h : runCookingTime (some ct) = Except.ok ()) : 1 ≤ ct ∧ ct ≤ 3200 := by
  rw [runCookingTime] at h
  split at h
  · exact absurd h (by simp)
  · next v heq =>
    exact cookingTimeField_ok heq

/-- A successful ingredient loop yields pairwise distinct ids, ids
disjoint from the seen set, and amounts at least 1. -/
theorem ingredientsLoop_ok :
    ∀ (seen : List Nat) (l : List IngredientInput),
      ingredientsLoop seen l = Except.ok () →
        (l.map (fun i => i.id)).Nodup ∧ ∀ i ∈ l, i.id ∉ seen ∧ 1 ≤ i.amount
  | _, [], _ => ⟨List.nodup_nil,
      fun i hi => absurd hi (List.not_mem_nil i)⟩
  | seen, item :: rest, h => by
    rw [ingredientsLoop] at h
    split at h
    · exact absurd h (by simp)
    · next hseen =>
      split at h
      · exact absurd h (by simp)
      · next hamt =>
        obtain ⟨hnd, hmem⟩ := ingredientsLoop_ok (item.id :: seen) rest h
        refine ⟨?_, ?_⟩
        · rw [List.map_cons, List.nodup_cons]
          refine ⟨?_, hnd⟩
          intro hmemmap
          rcases List.mem_map.mp hmemmap with ⟨j, hj, hjid⟩
          exact (hmem j hj).1 (by rw [hjid]; exact List.mem_cons_self _ _)
        · intro i hi
          rcases List.mem_cons.mp hi with rfl | hi'
          · refine ⟨?_, by omega⟩
            intro hc
            exact hseen (by simpa [List.contains] using hc)
          · have h' := hmem i hi'
            exact ⟨fun hm => h'.1 (List.mem_cons_of_mem _ hm), h'.2⟩

/-- A successful `validate_ingredients` yields a non-empty list with
distinct ids and amounts at least 1. -/
theorem validate_ingredients_ok {ing v : List IngredientInput}
    (h : validate_ingredients ing = Except.ok v) :
    ing ≠ [] ∧ (ing.map (fun i => i.id)).Nodup ∧ ∀ i ∈ ing, 1 ≤ i.amount := by
  rw [validate_ingredients] at h
  split at h
  · exact absurd h (by simp)
  · next hlen =>
    split at h
    · next e heq =>
      exact absurd h (by simp)
    · next u heq =>
      cases u
      obtain ⟨hnd, hmem⟩ := ingredientsLoop_ok [] ing heq
      refine ⟨?_, hnd, fun i hi => (hmem i hi).2⟩
      intro hnil
      rw [hnil] at hlen
      simp at hlen

/-- A successful ingredients field run on a supplied list gives the
validated properties. -/
theorem runIngredients_ok {ing : List IngredientInput}
    (h : runIngredients (some ing) = Except.ok ()) :
    ing ≠ [] ∧ (ing.map (fun i => i.id)).Nodup ∧ ∀ i ∈ ing, 1 ≤ i.amount := by
  rw [runIngredients] at h
  split at h
  · exact absurd h (by simp)
  · next v heq =>
    exact validate_ingredients_ok heq

/-- A successful object-level `validate` means ingredients are
supplied and tags are supplied and non-empty. -/
theorem serializerValidate_ok {p : RecipePatch}
    (h : serializerValidate p = Except.ok ()) :
    p.ingredients.isSome = true ∧ ∃ ts, p.tags = some ts ∧ ts ≠ [] := by
  rw [serializerValidate] at h
  split at h
  · exact absurd h (by simp)
  · next hing =>
    split at h
    · exact absurd h (by simp)
    · next htags =>
      refine ⟨Option.isSome_iff_ne_none.mpr (by simpa using hing), ?_⟩
      cases hts : p.tags with
      | none =>
        rw [hts] at htags
        simp at htags
      | some ts =>
        refine ⟨ts, rfl, fun hnil => ?_⟩
        rw [hts, hnil] at htags
        simp at htags

/-- Decomposition of a successful full validation run. -/
theorem runValidation_ok {p q : RecipePatch}
    (h : runValidation p = Except.ok q) :
    q = p ∧ runCookingTime p.cooking_time = Except.ok () ∧
      runTags p.tags = Except.ok () ∧
      runIngredients p.ingredients = Except.ok () ∧
      serializerValidate p = Except.ok () := by
  rw [runValidation] at h
  split at h
  · exact absurd h (by simp)
  · next u1 heq1 =>
    cases u1
    split at h
    · exact absurd h (by simp)
    · next u2 heq2 =>
      cases u2
      split at h
      · exact absurd h (by simp)
      · next u3 heq3 =>
        cases u3
        split at h
        · exact absurd h (by simp)
        · next u4 heq4 =>
          cases u4
          have hq : q = p := by
            injection h with h'
            exact h'.symm
          exact ⟨hq, heq1, heq2, heq3, heq4⟩

/-- Shape of every row built for a bulk insert. -/
theorem mkLines_mem :
    ∀ (firstId rid : Nat) (ing : List IngredientInput),
      ∀ l ∈ mkLines firstId rid ing,
        l.recipe = rid ∧ ∃ i ∈ ing, l.ingredient = i.id ∧ l.amount = i.amount
  | _, _, [], l, hl => absurd hl (List.not_mem_nil l)
  | firstId, rid, i :: rest, l, hl => by
    rw [mkLines] at hl
    rcases List.mem_cons.mp hl with rfl | hl'
    · exact ⟨rfl, i, List.mem_cons_self _ _, rfl, rfl⟩
    · obtain ⟨hr, j, hj, hji, hja⟩ := mkLines_mem (firstId + 1) rid rest l hl'
      exact ⟨hr, j, List.mem_cons_of_mem _ hj, hji, hja⟩

/-- The ingredient column of a bulk insert is the input id column. -/
theorem mkLines_map_ingredient :
    ∀ (firstId rid : Nat) (ing : List IngredientInput),
      (mkLines firstId rid ing).map (fun l => l.ingredient) =
        ing.map (fun i => i.id)
  | _, _, [] => rfl
  | firstId, rid, i :: rest => by
    rw [mkLines, List.map_cons, List.map_cons,
      mkLines_map_ingredient (firstId + 1) rid rest]

/-- A bulk insert for a non-empty input is non-empty. -/
theorem mkLines_ne_nil (firstId rid : Nat) {ing : List IngredientInput}
    (h : ing ≠ []) : mkLines firstId rid ing ≠ [] := by
  cases ing with
  | nil => exact absurd rfl h
  | cons i rest =>
    rw [mkLines]
    exact List.cons_ne_nil _ _

/-- Decomposition of a successful `bulk_create`. -/
theorem bulk_create_ok {db : Db} {rid : Nat} {ing : List IngredientInput}
    {db' : Db} (h : bulk_create db rid ing = Except.ok db') :
    db' = { db with lines := (db.lines ++
        mkLines (freshId (db.lines.map (fun l => l.id))) rid ing) } ∧
      lineConflict db.lines
        (mkLines (freshId (db.lines.map (fun l => l.id))) rid ing) = false := by
  rw [bulk_create] at h
  split at h
  · exact absurd h (by simp)
  · next hconf =>
    refine ⟨?_, Bool.eq_false_iff.mpr hconf⟩
    injection h with h'
    exact h'.symm

/-- What a failed conflict check guarantees: no new row collides with
a stored row of the same recipe and ingredient. -/
theorem lineConflict_false_no_overlap {existing newLines : List IngredientLine}
    (h : lineConflict existing newLines = false) :
    ∀ n ∈ newLines, ∀ l ∈ existing,
      ¬(l.recipe = n.recipe ∧ l.ingredient = n.ingredient) := by
  rw [lineConflict] at h
  rcases (Bool.or_eq_false_iff).mp h with ⟨h1, _⟩
  intro n hn l hl hcontra
  have h1' := List.any_eq_false.mp h1 n hn
  refine h1' (List.any_eq_true.mpr ⟨l, hl, ?_⟩)
  simp [hcontra.1, hcontra.2]

/-- The filter of an all-`rid` bulk insert keeps every row. -/
theorem filter_mkLines_self (firstId rid : Nat) (ing : List IngredientInput) :
    (mkLines firstId rid ing).filter (fun l => l.recipe == rid) =
      mkLines firstId rid ing := by
  refine List.filter_eq_self.mpr (fun l hl => ?_)
  have := (mkLines_mem firstId rid ing l hl).1
  simp [this]

/-- Claim C2, create half: a successful `createRecipe` establishes the
write invariant for the new recipe, in any state whose lines satisfy
the foreign-key constraint. -/
theorem createRecipe_ok (db : Db) (author : Nat) (p : RecipePatch)
    (db' : Db) (rid : Nat) (hfk : linesFkOk db)
    (h : createRecipe db author p = Except.ok (db', rid)) :
    recipeWriteInvariant db' rid := by
  rw [createRecipe] at h
  split at h
  · exact absurd h (by simp)
  · next hreq =>
    have hreq' : requiredForCreate p = true := by
      rcases Bool.eq_false_or_eq_true (requiredForCreate p) with ht | hf
      · exact ht
      · exact absurd (by simp [hf]) hreq
    split at h
    · exact absurd h (by simp)
    · next q heqv =>
      obtain ⟨_, hct, _, hing, hsv⟩ := runValidation_ok heqv
      obtain ⟨hingsome, ts0, hts, htsne⟩ := serializerValidate_ok hsv
      obtain ⟨ing0, hpi⟩ := Option.isSome_iff_exists.mp hingsome
      have hctsome : p.cooking_time.isSome = true := by
        rw [requiredForCreate] at hreq'
        rcases (Bool.and_eq_true _ _).mp hreq' with ⟨h4, _⟩
        rcases (Bool.and_eq_true _ _).mp h4 with ⟨h3, _⟩
        rcases (Bool.and_eq_true _ _).mp h3 with ⟨_, hc⟩
        exact hc
      obtain ⟨ct0, hpc⟩ := Option.isSome_iff_exists.mp hctsome
      rw [hpi] at hing h
      rw [hpc] at hct
      obtain ⟨hne, hnd, hamts⟩ := runIngredients_ok hing
      obtain ⟨hct1, hct2⟩ := runCookingTime_ok hct
      simp only [Option.getD_some] at h
      split at h
      · exact absurd h (by simp)
      · split at h
        · exact absurd h (by simp)
        · next db2 heqb =>
          obtain ⟨hdb2, hconf⟩ := bulk_create_ok heqb
          have hpair : db' = db2 ∧
              freshId (db.recipes.map (fun r => r.id)) = rid := by
            injection h with h'
            injection h' with ha hb
            exact ⟨ha.symm, hb⟩
          obtain ⟨rfl, hrid⟩ := hpair
          rw [hdb2, hrid]
          have hold : db.lines.filter (fun l => l.recipe == rid) = [] := by
            refine List.filter_eq_nil_iff.mpr (fun l hl => ?_)
            obtain ⟨r, hr, hrl⟩ := hfk l hl
            have hlt : l.recipe < rid := by
              rw [← hrid]
              exact lt_freshId (List.mem_map.mpr ⟨r, hr, hrl⟩)
            intro hbeq
            have := eq_of_beq hbeq
            omega
          refine ⟨⟨rid, author, p.name.getD "", p.text.getD "", ct0, ts0⟩,
            ?_, rfl, ?_, ?_, ?_, ?_, ?_, ?_⟩
          · refine List.mem_append.mpr (Or.inr ?_)
            rw [hts, hpc]
            simp
          · simpa using htsne
          · simp only [recipeLines, List.filter_append, hold,
              List.nil_append, filter_mkLines_self]
            exact mkLines_ne_nil _ _ hne
          · simp only [recipeLines, List.filter_append, hold,
              List.nil_append, filter_mkLines_self, mkLines_map_ingredient]
            exact hnd
          · intro l hl
            simp only [recipeLines, List.filter_append, hold,
              List.nil_append, filter_mkLines_self] at hl
            obtain ⟨_, i, hi, _, hla⟩ := mkLines_mem _ _ _ l hl
            rw [hla]
            exact hamts i hi
          · exact hct1
          · show ct0 ≤ 32000
            omega

/-- Every input id has a matching row in the bulk insert. -/
theorem mkLines_input_mem :
    ∀ (firstId rid : Nat) (ing : List IngredientInput), ∀ i ∈ ing,
      ∃ n ∈ mkLines firstId rid ing, n.recipe = rid ∧ n.ingredient = i.id
  | _, _, [], i, hi => absurd hi (List.not_mem_nil i)
  | firstId, rid, j :: rest, i, hi => by
    rw [mkLines]
    rcases List.mem_cons.mp hi with rfl | hi'
    · exact ⟨_, List.mem_cons_self _ _, rfl, rfl⟩
    · obtain ⟨n, hn, hnr, hni⟩ := mkLines_input_mem (firstId + 1) rid rest i hi'
      exact ⟨n, List.mem_cons_of_mem _ hn, hnr, hni⟩

/-- Claim C2, update half: a successful `updateRecipe` re-establishes
the write invariant for the updated recipe, in any state whose line
amounts are at least 1, whose lines for the recipe carry distinct
ingredients, and whose rows with the recipe's id have in-bounds
cooking times. -/
theorem updateRecipe_ok (db : Db) (actor rid : Nat) (p : RecipePatch)
    (db' : Db)
    (hamounts : ∀ l ∈ db.lines, 1 ≤ l.amount)
    (hnodupOld : ((recipeLines db rid).map (fun l => l.ingredient)).Nodup)
    (hctOld : ∀ r ∈ db.recipes, r.id = rid →
      1 ≤ r.cooking_time ∧ r.cooking_time ≤ 32000)
    (h : updateRecipe db actor rid p = (db', Except.ok ())) :
    recipeWriteInvariant db' rid := by
  rw [updateRecipe] at h
  split at h
  · exact absurd (congrArg Prod.snd h) (by simp)
  · next r heqf =>
    have hr : r ∈ db.recipes := List.mem_of_find?_eq_some heqf
    have hp := List.find?_some heqf
    have hrid : r.id = rid := eq_of_beq hp
    split at h
    · exact absurd (congrArg Prod.snd h) (by simp)
    · next hauth =>
      split at h
      · exact absurd (congrArg Prod.snd h) (by simp)
      · next q heqv =>
        obtain ⟨_, hct, _, hing, hsv⟩ := runValidation_ok heqv
        obtain ⟨hingsome, ts0, hts, htsne⟩ := serializerValidate_ok hsv
        split at h
        · next ts heqts =>
          split at h
          · next ing heqing =>
            dsimp only at h
            split at h
            · exact absurd (congrArg Prod.snd h) (by simp)
            · next db3 heqb =>
              rw [heqing] at hing
              obtain ⟨hne, hnd, hamts⟩ := runIngredients_ok hing
              obtain ⟨hdb3, hconf⟩ := bulk_create_ok heqb
              have htseq : ts = ts0 := by
                rw [heqts] at hts
                exact Option.some.inj hts
              have hdb' : db' = saveScalars db3 rid p :=
                (congrArg Prod.fst h).symm
              have hlines2 :
                  (clearRecipeIngredientThrough (setRecipeTags db rid ts)
                    rid).lines = db.lines := rfl
              have hrecs2 :
                  (clearRecipeIngredientThrough (setRecipeTags db rid ts)
                    rid).recipes =
                    db.recipes.map (fun qq =>
                      if qq.id == rid then { qq with tags := ts } else qq) :=
                rfl
              rw [hlines2] at hdb3
              have hdb'lines : db'.lines = (db.lines ++
                  mkLines (freshId (db.lines.map (fun l => l.id))) rid ing) := by
                rw [hdb', saveScalars, hdb3]
              have hdb'recs : db'.recipes =
                  (db.recipes.map (fun qq =>
                    if qq.id == rid then { qq with tags := ts } else qq)).map
                    (fun qq =>
                      if qq.id == rid then applyScalarFields qq p else qq) := by
                rw [hdb', saveScalars, hdb3]
                rfl
              have hRL : recipeLines db' rid =
                  recipeLines db rid ++
                    mkLines (freshId (db.lines.map (fun l => l.id))) rid ing := by
                rw [recipeLines, recipeLines, hdb'lines, List.filter_append,
                  filter_mkLines_self]
              have hnooverlap := lineConflict_false_no_overlap hconf
              refine ⟨applyScalarFields { r with tags := ts } p, ?_, ?_, ?_,
                ?_, ?_, ?_, ?_, ?_⟩
              · rw [hdb'recs]
                refine List.mem_map.mpr ⟨{ r with tags := ts }, ?_, ?_⟩
                · refine List.mem_map.mpr ⟨r, hr, ?_⟩
                  simp [hrid]
                · simp [hrid]
              · simp [applyScalarFields, hrid]
              · simp [applyScalarFields, htseq ▸ htsne]
              · rw [hRL]
                intro hnil
                rcases List.append_eq_nil.mp hnil with ⟨_, hnew⟩
                exact mkLines_ne_nil _ _ hne hnew
              · rw [hRL, List.map_append, mkLines_map_ingredient]
                refine List.Nodup.append hnodupOld hnd ?_
                intro x hxold hxnew
                rcases List.mem_map.mp hxold with ⟨l, hl, hlx⟩
                rcases List.mem_map.mp hxnew with ⟨i, hi, hix⟩
                obtain ⟨n, hn, hnr, hni⟩ :=
                  mkLines_input_mem (freshId (db.lines.map (fun l => l.id)))
                    rid ing i hi
                rcases List.mem_filter.mp hl with ⟨hldb, hlbeq⟩
                refine hnooverlap n hn l hldb ⟨?_, ?_⟩
                · rw [hnr]
                  exact eq_of_beq hlbeq
                · rw [hni, hix, hlx]
              · intro l hl
                rw [hRL] at hl
                rcases List.mem_append.mp hl with hl | hl
                · exact hamounts l (List.mem_filter.mp hl).1
                · obtain ⟨_, i, hi, _, hla⟩ := mkLines_mem _ _ _ l hl
                  rw [hla]
                  exact hamts i hi
              · cases hpc : p.cooking_time with
                | none =>
                  simp only [applyScalarFields, hpc, Option.getD_none]
                  exact (hctOld r hr hrid).1
                | some ct0 =>
                  rw [hpc] at hct
                  simp only [applyScalarFields, hpc, Option.getD_some]
                  exact (runCookingTime_ok hct).1
              · cases hpc : p.cooking_time with
                | none =>
                  simp only [applyScalarFields, hpc, Option.getD_none]
                  exact (hctOld r hr hrid).2
                | some ct0 =>
                  rw [hpc] at hct
                  simp only [applyScalarFields, hpc, Option.getD_some]
                  have := (runCookingTime_ok hct).2
                  omega
          · next heqing =>
            rw [heqing] at hingsome
            simp at hingsome
        · next heqts =>
          rw [heqts] at hts
          exact absurd hts (by simp)

/-- Claim C2.  After any successful create or update through
`RecipeWriteSerializer`, the written recipe has at least one tag, a
non-empty ingredient-line set with pairwise distinct ingredient
references, every line amount at least 1, and cooking_time within
[1, 32000] (the effective write bound is the model's [1, 3200]). -/
theorem C2_recipe_write_invariant :
    (∀ (db : Db) (author : Nat) (p : RecipePatch) (db' : Db) (rid : Nat),
      linesFkOk db → createRecipe db author p = Except.ok (db', rid) →
        recipeWriteInvariant db' rid) ∧
    (∀ (db : Db) (actor rid : Nat) (p : RecipePatch) (db' : Db),
      (∀ l ∈ db.lines, 1 ≤ l.amount) →
      ((recipeLines db rid).map (fun l => l.ingredient)).Nodup →
      (∀ r ∈ db.recipes, r.id = rid →
        1 ≤ r.cooking_time ∧ r.cooking_time ≤ 32000) →
      updateRecipe db actor rid p = (db', Except.ok ()) →
        recipeWriteInvariant db' rid) :=
  ⟨fun db author p db' rid hfk h => createRecipe_ok db author p db' rid hfk h,
   fun db actor rid p db' h1 h2 h3 h =>
     updateRecipe_ok db actor rid p db' h1 h2 h3 h⟩

/-- Witness for C2: a concrete create and a concrete update on the
one-recipe database. -/
theorem C2_witness :
    linesFkOk c5Db ∧ recipeWriteInvariant c2CreateDb 2 ∧
      recipeWriteInvariant c2UpdateDb 1 :=
  ⟨by
    show ∀ l ∈ c5Db.lines, ∃ r ∈ c5Db.recipes, r.id = l.recipe
    decide,
   C2_recipe_write_invariant.1 c5Db 1 c2Draft c2CreateDb 2
     (by
       show ∀ l ∈ c5Db.lines, ∃ r ∈ c5Db.recipes, r.id = l.recipe
       decide) rfl,
   C2_recipe_write_invariant.2 c5Db 1 1 c2UpdPatch c2UpdateDb (by decide)
     (by decide) (by decide) rfl⟩

end Foodgram
